import Mathlib

/-!
Shallow embedding of the stimulus-compositor core of the sweet-jsPsych
plugins (`src/plugins/symbol/src/index.ts` and
`src/plugins/gabor-array/src/index.ts`), with theorems settling the
frozen claims about it.

Numeric model: JavaScript numbers are embedded as exact rationals (ℚ)
where the source performs field arithmetic, and as real numbers (ℝ)
where the source calls transcendental functions (`Math.pow`, `Math.cos`,
`Math.sin`, `Math.exp`).  Bitwise 32-bit integer operations
(`Math.imul`, `^`, `|`, `>>>`) are embedded as natural-number
arithmetic modulo 2^32.
-/

namespace SweetJsPsych

/-- `clamp01` from both plugin sources:
`(x) => (x < 0 ? 0 : x > 1 ? 1 : x)`, over ℝ. -/
noncomputable def clamp01 (x : ℝ) : ℝ := if x < 0 then 0 else if x > 1 then 1 else x

/-- `clamp01` over ℚ (same source expression, exact-rational view). -/
def clamp01q (x : ℚ) : ℚ := if x < 0 then 0 else if x > 1 then 1 else x

/-- `deg2rad` from the sources: `(d) => (d * Math.PI) / 180`. -/
noncomputable def deg2rad (d : ℝ) : ℝ := d * Real.pi / 180

/-- JavaScript `Math.round`: round half toward positive infinity,
i.e. `⌊x + 1/2⌋`. -/
noncomputable def jsRound (x : ℝ) : ℤ := ⌊x + 1/2⌋

/-- JavaScript `Math.round` on an exact rational. -/
def jsRoundQ (x : ℚ) : ℤ := ⌊x + 1/2⌋

/-- Truncation toward zero, as performed by the JavaScript `%` operator. -/
noncomputable def jsTrunc (x : ℝ) : ℤ := if 0 ≤ x then ⌊x⌋ else ⌈x⌉

/-- JavaScript remainder operator `a % m` (sign follows the dividend):
`a - m * trunc(a / m)`. -/
noncomputable def jsRem (a m : ℝ) : ℝ := a - m * (jsTrunc (a / m) : ℝ)

/-- The `mod` helper of `drawTextureInto`:
`(n, m) => ((n % m) + m) % m` (always-nonnegative modulus). -/
noncomputable def jsMod (a m : ℝ) : ℝ := jsRem (jsRem a m + m) m

theorem clamp01_nonneg (x : ℝ) : 0 ≤ clamp01 x := by
  unfold clamp01; split_ifs with h1 h2 <;> linarith

theorem clamp01_le_one (x : ℝ) : clamp01 x ≤ 1 := by
  unfold clamp01; split_ifs with h1 h2 <;> linarith

theorem clamp01_of_mem (x : ℝ) (h0 : 0 ≤ x) (h1 : x ≤ 1) : clamp01 x = x := by
  unfold clamp01
  split_ifs with ha hb <;> first | rfl | linarith

theorem clamp01_eq_min (x : ℝ) (h0 : 0 ≤ x) : clamp01 x = min x 1 := by
  unfold clamp01
  split_ifs with ha hb
  · linarith
  · rw [min_eq_right]; linarith
  · rw [min_eq_left]; linarith

theorem clamp01q_nonneg (x : ℚ) : 0 ≤ clamp01q x := by
  unfold clamp01q; split_ifs with h1 h2 <;> linarith

theorem clamp01q_le_one (x : ℚ) : clamp01q x ≤ 1 := by
  unfold clamp01q; split_ifs with h1 h2 <;> linarith

/-- For a positive modulus, the JavaScript double-remainder idiom
`((a % m) + m) % m` computes `m * fract (a / m)`, the mathematical
nonnegative modulus. -/
theorem jsMod_eq_fract (a m : ℝ) (hm : 0 < m) :
    jsMod a m = m * Int.fract (a / m) := by
  have hm0 : m ≠ 0 := ne_of_gt hm
  have ham : m * (a / m) = a := by field_simp
  rcases le_or_lt 0 (a / m) with hq0 | hq0
  · have h1 : jsRem a m = m * Int.fract (a / m) := by
      unfold jsRem jsTrunc
      rw [if_pos hq0, Int.fract, mul_sub, ham]
    have h2 : (m * Int.fract (a / m) + m) / m = Int.fract (a / m) + 1 := by
      field_simp; ring
    have h3 : jsTrunc ((m * Int.fract (a / m) + m) / m) = 1 := by
      unfold jsTrunc
      rw [h2, if_pos (by have := Int.fract_nonneg (a / m); linarith)]
      rw [show Int.fract (a / m) + 1 = Int.fract (a / m) + ((1 : ℤ) : ℝ) by norm_num,
        Int.floor_add_int, Int.floor_fract]
      norm_num
    unfold jsMod
    rw [h1]
    unfold jsRem
    rw [h3]
    push_cast
    ring
  · have h1 : jsRem a m = m * (a / m - (⌈a / m⌉ : ℝ)) := by
      unfold jsRem jsTrunc
      rw [if_neg (not_le.mpr hq0), mul_sub, ham]
    set u : ℝ := a / m - (⌈a / m⌉ : ℝ) + 1 with hu
    have hsum : jsRem a m + m = m * u := by rw [h1, hu]; ring
    have hu0 : 0 < u := by
      have := Int.ceil_lt_add_one (a / m)
      rw [hu]; linarith
    have hu1 : u ≤ 1 := by
      have := Int.le_ceil (a / m)
      rw [hu]; linarith
    have h2 : m * u / m = u := by field_simp
    rcases eq_or_lt_of_le hu1 with heq | hlt
    · -- the quotient is an integer: the modulus is 0
      have hqz : a / m = (⌈a / m⌉ : ℝ) := by rw [hu] at heq; linarith
      have hfr : Int.fract (a / m) = 0 := by rw [hqz, Int.fract_intCast]
      have h3 : jsTrunc (m * u / m) = 1 := by
        unfold jsTrunc
        rw [h2, if_pos (le_of_lt hu0), heq, Int.floor_one]
      unfold jsMod
      rw [hsum]
      unfold jsRem
      rw [h3, hfr, heq]
      push_cast
      ring
    · -- non-integer quotient: the modulus is m * fract (a / m)
      have h3 : jsTrunc (m * u / m) = 0 := by
        unfold jsTrunc
        rw [h2, if_pos (le_of_lt hu0)]
        exact Int.floor_eq_zero_iff.mpr ⟨le_of_lt hu0, hlt⟩
      have hceil : (⌈a / m⌉ : ℤ) = ⌊a / m⌋ + 1 := by
        have hfl : (⌊a / m⌋ : ℝ) ≤ a / m := Int.floor_le (a / m)
        have hql : a / m < (⌈a / m⌉ : ℝ) := by rw [hu] at hlt; linarith
        have hZlt : (⌊a / m⌋ : ℤ) < ⌈a / m⌉ := by exact_mod_cast lt_of_le_of_lt hfl hql
        have hle : (⌈a / m⌉ : ℤ) ≤ ⌊a / m⌋ + 1 := Int.ceil_le_floor_add_one (a / m)
        omega
      have hufr : u = Int.fract (a / m) := by
        rw [hu, Int.fract, hceil]
        push_cast
        ring
      unfold jsMod
      rw [hsum]
      unfold jsRem
      rw [h3, ← hufr]
      push_cast
      ring

/-- Adding one full modulus does not change the JavaScript nonnegative
modulus. -/
theorem jsMod_add_self (a m : ℝ) (hm : 0 < m) : jsMod (a + m) m = jsMod a m := by
  rw [jsMod_eq_fract _ _ hm, jsMod_eq_fract _ _ hm]
  have hm0 : m ≠ 0 := ne_of_gt hm
  have : (a + m) / m = a / m + (1 : ℤ) := by push_cast; field_simp
  rw [this, Int.fract_add_int]

/-! ## Gamma encoding (`fillBackground`, `drawItem`, `drawTextureInto`, `drawPatches`) -/

/-- The gamma encoding step used throughout both plugins:
`Math.round(Math.pow(g, 1 / gamma) * 255)`. -/
noncomputable def gammaEncode (g gamma : ℝ) : ℤ := jsRound (g ^ ((1 : ℝ) / gamma) * 255)

/-- The mathematical inverse of `gammaEncode` named by the spec:
`decode(v, γ) = (v/255)^γ`.  (Not a function of the repository; it is
the decoding map the round-trip claim is stated against.) -/
noncomputable def gammaDecode (v : ℤ) (gamma : ℝ) : ℝ := ((v : ℝ) / 255) ^ gamma

/-! ## mulberry32 pseudo-random generator (`src/plugins/symbol/src/index.ts:104`)

`function mulberry32(a) { return function(){ let t=(a+=0x6d2b79f5);
t=Math.imul(t^(t>>>15),t|1); t^=t+Math.imul(t^(t>>>7),t|61);
return ((t^(t>>>14))>>>0)/4294967296; }; }`

JavaScript bitwise operators truncate their operands to 32 bits, so the
closure state is only meaningful modulo 2^32; the accumulator `a` itself
stays an exact float-represented integer for every buffer the plugin can
allocate (well below 2^53 / 0x6d2b79f5 pixels). -/

/-- Truncation to 32 bits (`>>> 0` / implicit `ToUint32`). -/
def u32 (n : ℕ) : ℕ := n % 4294967296

/-- Bitwise exclusive-or of the low `k` bits, by structural recursion
(kernel-reducible; agrees with the JavaScript 32-bit `^` for operands
below `2^k`). -/
def xorBits : ℕ → ℕ → ℕ → ℕ
  | 0, _, _ => 0
  | k + 1, a, b => (if a % 2 = b % 2 then 0 else 1) + 2 * xorBits k (a / 2) (b / 2)

/-- Bitwise inclusive-or of the low `k` bits (JavaScript 32-bit `|`). -/
def orBits : ℕ → ℕ → ℕ → ℕ
  | 0, _, _ => 0
  | k + 1, a, b => (if a % 2 = 1 ∨ b % 2 = 1 then 1 else 0) + 2 * orBits k (a / 2) (b / 2)

/-- JavaScript `^` on 32-bit operands. -/
def xor32 (a b : ℕ) : ℕ := xorBits 32 a b

/-- JavaScript `|` on 32-bit operands. -/
def or32 (a b : ℕ) : ℕ := orBits 32 a b

/-- JavaScript `>>> k` on a 32-bit operand: floor division by `2^k`. -/
def shr32 (a k : ℕ) : ℕ := a / 2 ^ k

/-- Closure state `t = (a += 0x6d2b79f5)` read by the n-th call (0-indexed),
truncated to 32 bits. -/
def mulberry32State (seed n : ℕ) : ℕ := u32 (seed + (n + 1) * 0x6d2b79f5)

/-- The output scrambling of one `mulberry32` call, producing the 32-bit
numerator of the returned fraction:
`t = Math.imul(t^(t>>>15), t|1); t ^= t + Math.imul(t^(t>>>7), t|61);
(t^(t>>>14)) >>> 0`  (`Math.imul` multiplies modulo 2^32). -/
def mulberry32Out (t : ℕ) : ℕ :=
  let t1 := u32 (xor32 t (shr32 t 15) * or32 t 1)
  let t2 := xor32 t1 (u32 (t1 + u32 (xor32 t1 (shr32 t1 7) * or32 t1 61)))
  u32 (xor32 t2 (shr32 t2 14))

/-- Value of the n-th call of `mulberry32(seed)`:
`((t^(t>>>14))>>>0)/4294967296 ∈ [0,1)`. -/
def mulberry32Rand (seed n : ℕ) : ℚ :=
  (mulberry32Out (mulberry32State seed n) : ℚ) / 4294967296

/-- `base.seed = Number.isFinite(raw.seed) ? raw.seed : Math.floor(Math.random()*1e9)`
(`normalizeItems`).  The `oracle` argument stands for the
non-reproducible `Math.random()` fallback used when no finite seed is
supplied. -/
def resolveSeed (raw : Option ℤ) (oracle : ℤ) : ℤ := raw.getD oracle

/-- Effective PRNG seed `(it.seed || 1) >>> 0` (`drawTextureInto`):
a zero seed is falsy in JavaScript and is replaced by 1, then the value
is truncated to an unsigned 32-bit integer. -/
def effSeed (s : ℤ) : ℕ := ((if s = 0 then 1 else s) % 4294967296).toNat

/-! ## Texture synthesis (`drawTextureInto`) -/

/-- Linear intensity of the i-th pixel of a noise texture
(noise branch of `drawTextureInto`):
`amp = clamp01(contrast); g0 = clamp01(gray);
n = (rand() - 0.5) * amp; vlin = clamp01(g0 + n)` — pixel i consumes
the i-th PRNG output. -/
def noisePixelLin (seed : ℕ) (contrast gray : ℚ) (i : ℕ) : ℚ :=
  clamp01q (clamp01q gray + (mulberry32Rand seed i - 1/2) * clamp01q contrast)

/-- Displayed byte of the i-th noise pixel:
`Math.round(Math.pow(vlin, 1/gamma) * 255)`. -/
noncomputable def noisePixelByte (gamma : ℝ) (seed : ℕ) (contrast gray : ℚ) (i : ℕ) : ℤ :=
  gammaEncode ((noisePixelLin seed contrast gray i : ℚ) : ℝ) gamma

/-- The full W×H noise pixel-byte buffer synthesized from a (normalized)
item seed `s`, including the `(s || 1) >>> 0` seed fixup. -/
noncomputable def noiseBuffer (gamma : ℝ) (W H : ℕ) (s : ℤ) (contrast gray : ℚ) :
    Fin (W * H) → ℤ :=
  fun i => noisePixelByte gamma (effSeed s) contrast gray (i : ℕ)

/-- Resolved bar width `Math.max(1, Math.round(it.bar_w_px))`
(stripes branch of `drawTextureInto`); always at least 1. -/
noncomputable def stripeBarW (bar_w_px : ℝ) : ℤ := max 1 (jsRound bar_w_px)

/-- Linear intensity sampled by the stripes branch of `drawTextureInto`
at position (x, y) of a W×H texture box:
`xn = (x - W/2)*cos θ + (y - H/2)*sin θ;
t = mod(xn / barW + phase*2, 2); isDark = t < 2*duty;
vlin = clamp01(g0 + (isDark ? -amp/2 : +amp/2))`.
The pixel loop evaluates this at integer (x, y); the sampling function
itself is defined at every real position. -/
noncomputable def stripeLin (W H : ℕ) (bar_w_px duty phase_deg orientation_deg : ℝ)
    (gray contrast : ℝ) (x y : ℝ) : ℝ :=
  let d := clamp01 duty
  let barW := (stripeBarW bar_w_px : ℝ)
  let ph := phase_deg / 360
  let g0 := clamp01 gray
  let amp := clamp01 contrast
  let ct := Real.cos (deg2rad orientation_deg)
  let st := Real.sin (deg2rad orientation_deg)
  let xn := (x - (W : ℝ) / 2) * ct + (y - (H : ℝ) / 2) * st
  let t := jsMod (xn / barW + ph * 2) 2
  clamp01 (g0 + if t < 2 * d then -amp / 2 else amp / 2)

/-- Displayed byte of a stripe-texture sample:
`Math.round(Math.pow(vlin, 1/gamma) * 255)`. -/
noncomputable def stripeByte (gamma : ℝ) (W H : ℕ)
    (bar_w_px duty phase_deg orientation_deg gray contrast : ℝ) (x y : ℝ) : ℤ :=
  gammaEncode (stripeLin W H bar_w_px duty phase_deg orientation_deg gray contrast x y) gamma

/-! ## Window masks (`applyWindowMask`) -/

/-- Per-pixel coverage of the raised-cosine window
(`applyWindowMask`): `a = r <= R ? 0.5 * (1 + Math.cos(Math.PI * r / R)) : 0`. -/
noncomputable def raisedcosCoverage (R r : ℝ) : ℝ :=
  if r ≤ R then 0.5 * (1 + Real.cos (Real.pi * r / R)) else 0

/-! ## Item normalization (`normalizeItems`, symbol plugin)

A raw item is a loosely-typed record: every field may be absent.  The
fields embedded here are the ones the frozen claims inspect (appearance
fractions, draw order, the kind dispatch and its disc default, and the
texture parameters); geometry fields that no claim touches are omitted
from the record but normalized the same way in the source. -/

structure RawItem where
  kind : Option String
  gray : Option ℚ
  alpha : Option ℚ
  contrast : Option ℚ
  duty : Option ℚ
  z : Option ℚ
  blend : Option String
  mode : Option String
  seed : Option ℤ
  radius_px : Option ℚ
  fill : Option Bool

/-- A canonical, post-normalization item (the fields the claims use). -/
structure NormItem where
  kind : String
  x_px : ℚ
  y_px : ℚ
  z : ℚ
  blend : String
  gray : ℚ
  alpha : ℚ
  contrast : Option ℚ
  duty : Option ℚ
  mode : Option String
  radius_px : Option ℚ
  fill : Option Bool

/-- The recognized `kind` tags of the symbol plugin's `switch`. -/
def recognizedKinds : List String :=
  ["circle", "annulus", "rect", "rectframe", "stripe", "cross", "texture"]

/-- One item of `normalizeItems` (`src/plugins/symbol/src/index.ts:216-317`),
restricted to the embedded fields.  `bg` is the trial's `bg_gray`.
Common fields: `gray: clamp01(raw.gray ?? bg)`, `alpha: clamp01(raw.alpha ?? 1)`,
`z: raw.z ?? 0`, `blend: raw.blend ?? "source-over"`; then the `switch` on
`kind` fills shape fields, texture branches clamping `contrast` (default
0.5 for noise, 0.6 for stripes) and `duty` (default 0.5, stripes only),
and the `default` branch substituting a filled disc of radius 40. -/
def normalizeItem (bg : ℚ) (raw : RawItem) : NormItem :=
  let base : NormItem :=
    { kind := raw.kind.getD ""
      x_px := 0
      y_px := 0
      z := raw.z.getD 0
      blend := raw.blend.getD "source-over"
      gray := clamp01q (raw.gray.getD bg)
      alpha := clamp01q (raw.alpha.getD 1)
      contrast := none
      duty := none
      mode := none
      radius_px := none
      fill := none }
  if raw.kind = some "circle" then
    { base with radius_px := some (raw.radius_px.getD 40), fill := some (raw.fill.getD true) }
  else if raw.kind = some "annulus" then base
  else if raw.kind = some "rect" then base
  else if raw.kind = some "rectframe" then base
  else if raw.kind = some "stripe" then base
  else if raw.kind = some "cross" then base
  else if raw.kind = some "texture" then
    if raw.mode = some "noise" then
      { base with mode := some "noise", contrast := some (clamp01q (raw.contrast.getD (1/2))) }
    else
      { base with
        mode := some "stripes"
        contrast := some (clamp01q (raw.contrast.getD (3/5)))
        duty := some (clamp01q (raw.duty.getD (1/2))) }
  else
    -- `default: base.kind = "circle"; base.radius_px = 40; base.fill = true`
    { base with kind := "circle", radius_px := some 40, fill := some true }

/-! ## The compositor (`trial` lines 168-172, `drawItem`, `fillBackground`)

`items.sort((a, b) => (a.z - b.z))` — `Array.prototype.sort` is a stable
sort per the ECMAScript specification, so the embedding uses a stable
insertion sort on the `z` key.  Painting models the canvas `source-over`
operator on one grayscale pixel: an item covering the pixel with
opacity α replaces the pixel value v by `(1-α)·v + α·item-byte`.
Only filled discs are given exact geometry (the claims compare opaque
overlapping items); items of other kinds or with other blend modes leave
the modelled pixel unchanged. -/

/-- Stable insertion of an item into a z-sorted list: the new item goes
before the first strictly larger z, after existing items of equal z. -/
def insertZ (a : NormItem) : List NormItem → List NormItem
  | [] => [a]
  | b :: l => if a.z ≤ b.z then a :: b :: l else b :: insertZ a l

/-- Stable sort by ascending `z` (the compositor's
`items.sort((a, b) => (a.z - b.z))`). -/
def sortZ : List NormItem → List NormItem
  | [] => []
  | a :: l => insertZ a (sortZ l)

/-- Displayed byte of an item's gray level (`drawItem` line 321:
`v = Math.round(Math.pow(it.gray, 1 / trial.gamma) * 255)`). -/
noncomputable def itemByteVal (gamma : ℝ) (it : NormItem) : ℤ :=
  gammaEncode ((it.gray : ℝ)) gamma

/-- Whether a filled disc item covers canvas pixel (px, py); the item is
translated to `(round(CW/2 + x_px), round(CH/2 + y_px))` (`drawItem`). -/
def coversDisc (CW CH : ℕ) (it : NormItem) (px py : ℤ) : Bool :=
  it.kind == "circle" && it.fill.getD true &&
    match it.radius_px with
    | some r =>
        decide (((px : ℚ) - (jsRoundQ ((CW : ℚ) / 2 + it.x_px) : ℚ)) ^ 2 +
          ((py : ℚ) - (jsRoundQ ((CH : ℚ) / 2 + it.y_px) : ℚ)) ^ 2 ≤ r ^ 2)
    | none => false

/-- Painting one item onto the value of one canvas pixel under the
canvas compositing model (`source-over` with `globalAlpha = it.alpha`). -/
noncomputable def paintPixel (gamma : ℝ) (CW CH : ℕ) (px py : ℤ) (cur : ℝ)
    (it : NormItem) : ℝ :=
  if coversDisc CW CH it px py && (it.blend == "source-over") then
    (1 - (it.alpha : ℝ)) * cur + (it.alpha : ℝ) * (itemByteVal gamma it : ℝ)
  else cur

/-- Value of one canvas pixel after a trial draw: background fill
(`fillBackground`) followed by every item in stable ascending z-order. -/
noncomputable def compositePixel (gamma : ℝ) (bg : ℝ) (CW CH : ℕ)
    (items : List NormItem) (px py : ℤ) : ℝ :=
  (sortZ items).foldl (paintPixel gamma CW CH px py)
    ((gammaEncode (clamp01 bg) gamma : ℤ) : ℝ)

/-! ## Gabor-array renderer (`src/plugins/gabor-array/src/index.ts`, `drawPatches`)

`drawPatches` accumulates every patch's contribution into a linear
`Float32Array` buffer initialized to `clamp01(bg_gray)`, then writes the
buffer out with one clamp and one gamma encoding per pixel.  The
embedding reproduces the per-pixel accumulation for an arbitrary canvas
pixel (x, y): a patch touches the pixel exactly when the pixel lies in
the patch's `(2·half+1)²` loop window and inside the canvas. -/

structure PatchDraw where
  x_px : ℝ
  y_px : ℝ
  sigma_px : ℝ
  orientation_deg : ℝ
  contrast : ℝ
  sf_cpp : ℝ
  phase_deg : ℝ
  size_px : ℝ
  alpha : ℝ

/-- `half = Math.floor(p.size_px / 2)`. -/
noncomputable def gaborHalf (p : PatchDraw) : ℤ := ⌊p.size_px / 2⌋

/-- `cx = Math.round(W / 2 + p.x_px)`. -/
noncomputable def gaborCx (W : ℕ) (p : PatchDraw) : ℤ := jsRound ((W : ℝ) / 2 + p.x_px)

/-- `cy = Math.round(H / 2 + p.y_px)`. -/
noncomputable def gaborCy (H : ℕ) (p : PatchDraw) : ℤ := jsRound ((H : ℝ) / 2 + p.y_px)

/-- Whether the pixel loop of `drawPatches` visits canvas pixel (x, y)
for patch `p`: `dy, dx ∈ [-half, half]` with the canvas bounds checks
`0 ≤ x < W`, `0 ≤ y < H`. -/
noncomputable def gaborVisited (W H : ℕ) (p : PatchDraw) (x y : ℤ) : Prop :=
  |x - gaborCx W p| ≤ gaborHalf p ∧ |y - gaborCy H p| ≤ gaborHalf p ∧
    0 ≤ x ∧ x < (W : ℤ) ∧ 0 ≤ y ∧ y < (H : ℤ)

noncomputable instance (W H : ℕ) (p : PatchDraw) (x y : ℤ) :
    Decidable (gaborVisited W H p x y) := by
  unfold gaborVisited; infer_instance

/-- One patch's linear contribution at canvas pixel (x, y):
`contrib = bg_gray * p.contrast * cos(2π·sf_cpp·xr + φ) * exp(-r²/(2σ²)) * alpha`
with `xr = dx·cos θ + dy·sin θ`. -/
noncomputable def gaborContrib (bg : ℝ) (W H : ℕ) (p : PatchDraw) (x y : ℤ) : ℝ :=
  let dx : ℝ := ((x - gaborCx W p : ℤ) : ℝ)
  let dy : ℝ := ((y - gaborCy H p : ℤ) : ℝ)
  let xr := dx * Real.cos (deg2rad p.orientation_deg) + dy * Real.sin (deg2rad p.orientation_deg)
  bg * p.contrast * Real.cos (2 * Real.pi * p.sf_cpp * xr + deg2rad p.phase_deg) *
    Real.exp (-(dx ^ 2 + dy ^ 2) / (2 * p.sigma_px ^ 2)) * p.alpha

/-- Accumulation of one patch into the linear buffer value of one pixel:
`"max"` mode takes the elementwise maximum with the clamped candidate
`clamp01(bg_gray + contrib)`; every other mode (`"add"`) sums the raw
contribution. -/
noncomputable def gaborStep (blend_mode : String) (bg : ℝ) (W H : ℕ) (x y : ℤ)
    (cur : ℝ) (p : PatchDraw) : ℝ :=
  if gaborVisited W H p x y then
    if blend_mode = "max" then max cur (clamp01 (bg + gaborContrib bg W H p x y))
    else cur + gaborContrib bg W H p x y
  else cur

/-- Linear buffer value of pixel (x, y) after all patches are drawn;
the buffer is initialized to `clamp01(bg_gray)`. -/
noncomputable def gaborBuf (blend_mode : String) (bg : ℝ) (W H : ℕ)
    (patches : List PatchDraw) (x y : ℤ) : ℝ :=
  patches.foldl (gaborStep blend_mode bg W H x y) (clamp01 bg)

/-- Displayed byte of pixel (x, y): the final linear value is clamped
once and gamma-encoded once
(`v = clamp01(floatBuf[i]); u8 = Math.round(Math.pow(v, 1/gamma) * 255)`). -/
noncomputable def gaborByte (gamma : ℝ) (blend_mode : String) (bg : ℝ) (W H : ℕ)
    (patches : List PatchDraw) (x y : ℤ) : ℤ :=
  gammaEncode (clamp01 (gaborBuf blend_mode bg W H patches x y)) gamma

/-! ## Claim C5 — raised-cosine window coverage -/

/-- C5: the raised-cosine window's per-pixel coverage equals
`0.5·(1 + cos(π·r/R))` for every radial distance `r ≤ R`, equals 0 for
every `r > R`, evaluates to exactly 0 at `r = R`, and is monotonically
non-increasing on `[0, ∞)`. -/
theorem c5_raisedcos_coverage (R : ℝ) (hR : 0 < R) :
    (∀ r, 0 ≤ r → r ≤ R → raisedcosCoverage R r = 0.5 * (1 + Real.cos (Real.pi * r / R))) ∧
    (∀ r, R < r → raisedcosCoverage R r = 0) ∧
    raisedcosCoverage R R = 0 ∧
    AntitoneOn (raisedcosCoverage R) (Set.Ici 0) := by
  refine ⟨fun r h0 h1 => ?_, fun r h => ?_, ?_, ?_⟩
  · rw [raisedcosCoverage, if_pos h1]
  · rw [raisedcosCoverage, if_neg (not_le.mpr h)]
  · rw [raisedcosCoverage, if_pos le_rfl, mul_div_assoc, div_self (ne_of_gt hR),
      mul_one, Real.cos_pi]
    norm_num
  · intro r1 h1 r2 h2 h12
    have h1R : (0 : ℝ) ≤ r1 := h1
    have h2R : (0 : ℝ) ≤ r2 := h2
    unfold raisedcosCoverage
    split_ifs with ha hb
    · have hcos : Real.cos (Real.pi * r2 / R) ≤ Real.cos (Real.pi * r1 / R) := by
        apply Real.cos_le_cos_of_nonneg_of_le_pi
        · exact div_nonneg (mul_nonneg Real.pi_pos.le h1R) hR.le
        · rw [div_le_iff₀ hR]
          nlinarith [Real.pi_pos]
        · gcongr
      linarith
    · linarith
    · nlinarith [Real.neg_one_le_cos (Real.pi * r1 / R)]
    · exact le_rfl

/-- Witness for C5 at `R = 1`: coverage at the rim is 0 and the
coverage at `r = 1` does not exceed the coverage at `r = 0`. -/
theorem c5_raisedcos_coverage_witness :
    (0 : ℝ) < 1 ∧ raisedcosCoverage 1 1 = 0 ∧
      raisedcosCoverage 1 1 ≤ raisedcosCoverage 1 0 :=
  ⟨one_pos, (c5_raisedcos_coverage 1 one_pos).2.2.1,
    (c5_raisedcos_coverage 1 one_pos).2.2.2 (by norm_num) (by norm_num) zero_le_one⟩

/-! ## Claim C6 — gamma encode/decode round trip

The claim quantifies over every `γ > 0`; it fails for large `γ`,
where one quantization step in encoded space expands to a large error in
linear space.  The round trip does stay within `1/255` at the plugins'
default `γ = 1`. -/

/-- C6 counterexample: at `γ = 100` and the valid gray
`g = (499/500)^100 ≈ 0.819 ∈ [0,1]`, the round trip
`decode(encode(g, γ), γ)` misses `g` by ≈ 0.143 > 1/255. -/
theorem c6_gamma_roundtrip_counterexample :
    (0 : ℝ) < 100 ∧ (0 : ℝ) ≤ ((499 : ℝ)/500) ^ (100 : ℕ) ∧
      ((499 : ℝ)/500) ^ (100 : ℕ) ≤ 1 ∧
      ¬ |gammaDecode (gammaEncode (((499 : ℝ)/500) ^ (100 : ℕ)) 100) 100 -
          ((499 : ℝ)/500) ^ (100 : ℕ)| ≤ 1/255 := by
  have hroot : ((((499 : ℝ)/500) ^ (100 : ℕ)) ^ ((1 : ℝ)/100)) = (499 : ℝ)/500 := by
    rw [← Real.rpow_natCast ((499 : ℝ)/500) 100,
      ← Real.rpow_mul (by norm_num : (0 : ℝ) ≤ 499/500)]
    norm_num
  have henc : gammaEncode (((499 : ℝ)/500) ^ (100 : ℕ)) 100 = 254 := by
    rw [gammaEncode, hroot, jsRound]
    norm_num
  have hdec : gammaDecode 254 100 = ((254 : ℝ)/255) ^ (100 : ℕ) := by
    rw [gammaDecode, ← Real.rpow_natCast ((254 : ℝ)/255) 100]
    norm_num
  have hgap : ((499 : ℝ)/500) ^ (100 : ℕ) - ((254 : ℝ)/255) ^ (100 : ℕ) > 1/255 := by
    norm_num
  refine ⟨by norm_num, by positivity, ?_, ?_⟩
  · apply pow_le_one₀ <;> norm_num
  · rw [henc, hdec]
    intro hle
    have h2 := (abs_le.mp hle).1
    linarith

/-- C6 amended: at the display gamma `γ = 1` (the plugins' default),
the gamma round trip `decode(encode(g, 1), 1)` returns within `1/255`
of every valid gray `g ∈ [0,1]`; for general `γ > 0` the 1/255 bound
holds in encoded space, not in linear space. -/
theorem c6_gamma_roundtrip_amended (g : ℝ) (_hg0 : 0 ≤ g) (_hg1 : g ≤ 1) :
    |gammaDecode (gammaEncode g 1) 1 - g| ≤ 1/255 := by
  rw [gammaEncode, gammaDecode]
  norm_num [Real.rpow_one]
  rw [jsRound]
  set n := ⌊g * 255 + 1/2⌋ with hn
  have hl : (n : ℝ) ≤ g * 255 + 1/2 := Int.floor_le _
  have hu : g * 255 + 1/2 < n + 1 := Int.lt_floor_add_one _
  rw [abs_le]
  constructor <;> [linarith; linarith]

/-- Witness for the amended C6 at `g = 1/2`. -/
theorem c6_gamma_roundtrip_amended_witness :
    (0 : ℝ) ≤ 1/2 ∧ (1/2 : ℝ) ≤ 1 ∧
      |gammaDecode (gammaEncode (1/2) 1) 1 - 1/2| ≤ 1/255 :=
  ⟨by norm_num, by norm_num, c6_gamma_roundtrip_amended (1/2) (by norm_num) (by norm_num)⟩

/-! ## Claim C7 — stripe grating periodicity -/

/-- C7: stripe-grating synthesis is periodic along the grating normal:
shifting the sampling position by `period·(cos θ, sin θ)` with
`period = 2 × the resolved bar (half-period) width` leaves both the
linear intensity and the displayed byte unchanged. -/
theorem c7_stripe_periodic (W H : ℕ) (bw d ph θ g c gamma x y : ℝ) :
    stripeLin W H bw d ph θ g c
        (x + 2 * (stripeBarW bw : ℝ) * Real.cos (deg2rad θ))
        (y + 2 * (stripeBarW bw : ℝ) * Real.sin (deg2rad θ)) =
      stripeLin W H bw d ph θ g c x y ∧
    stripeByte gamma W H bw d ph θ g c
        (x + 2 * (stripeBarW bw : ℝ) * Real.cos (deg2rad θ))
        (y + 2 * (stripeBarW bw : ℝ) * Real.sin (deg2rad θ)) =
      stripeByte gamma W H bw d ph θ g c x y := by
  have hb1 : (0 : ℤ) < stripeBarW bw := lt_of_lt_of_le zero_lt_one (le_max_left _ _)
  have hbpos : (0 : ℝ) < (stripeBarW bw : ℝ) := by exact_mod_cast hb1
  have hbne : (stripeBarW bw : ℝ) ≠ 0 := ne_of_gt hbpos
  have hpyth := Real.cos_sq_add_sin_sq (deg2rad θ)
  have hxn : (x + 2 * (stripeBarW bw : ℝ) * Real.cos (deg2rad θ) - (W : ℝ) / 2) *
        Real.cos (deg2rad θ) +
        (y + 2 * (stripeBarW bw : ℝ) * Real.sin (deg2rad θ) - (H : ℝ) / 2) *
        Real.sin (deg2rad θ) =
      ((x - (W : ℝ) / 2) * Real.cos (deg2rad θ) +
        (y - (H : ℝ) / 2) * Real.sin (deg2rad θ)) + 2 * (stripeBarW bw : ℝ) := by
    linear_combination (2 * (stripeBarW bw : ℝ)) * hpyth
  have harg : ∀ u : ℝ, (u + 2 * (stripeBarW bw : ℝ)) / (stripeBarW bw : ℝ) + ph / 360 * 2 =
      (u / (stripeBarW bw : ℝ) + ph / 360 * 2) + 2 := by
    intro u
    field_simp
    ring
  have hlin : stripeLin W H bw d ph θ g c
      (x + 2 * (stripeBarW bw : ℝ) * Real.cos (deg2rad θ))
      (y + 2 * (stripeBarW bw : ℝ) * Real.sin (deg2rad θ)) =
      stripeLin W H bw d ph θ g c x y := by
    simp only [stripeLin]
    rw [hxn, harg, jsMod_add_self _ 2 two_pos]
  exact ⟨hlin, by simp only [stripeByte]; rw [hlin]⟩

/-! ## Claim C1 — the 100×100 stripe scenario -/

/-- The dark/light classification of the stripes branch of
`drawTextureInto`: a sample is dark when the wrapped phase coordinate
`t = mod(xn/barW + phase·2, 2)` is below `2·duty`. -/
noncomputable def stripeIsDark (W H : ℕ) (bw duty ph θ : ℝ) (x y : ℝ) : Prop :=
  jsMod (((x - (W : ℝ) / 2) * Real.cos (deg2rad θ) +
      (y - (H : ℝ) / 2) * Real.sin (deg2rad θ)) / (stripeBarW bw : ℝ) + ph / 360 * 2) 2 <
    2 * clamp01 duty

/-- C1 counterexample: in the claimed 100×100 scenario (orientation 0°,
bar width 10 px, duty 0.5, contrast 0.4, gray 0.5, gamma 1.0), the dark
pixel at column 10 has byte value 77, not one of the claimed values
{76, 178}: the dark linear intensity 0.3 quantizes to
`Math.round(76.5) = 77` (JavaScript rounds half up), not 76. -/
theorem c1_stripe_scenario_counterexample :
    stripeByte 1 100 100 10 (1/2) 0 0 (1/2) (2/5) 10 0 = 77 ∧
      (77 : ℤ) ≠ 76 ∧ (77 : ℤ) ≠ 178 := by
  refine ⟨?_, by decide, by decide⟩
  have hbar : stripeBarW 10 = 10 := by
    rw [stripeBarW, jsRound]
    norm_num
  simp only [stripeByte, stripeLin, gammaEncode, deg2rad, hbar]
  norm_num [Real.cos_zero, Real.sin_zero]
  rw [jsMod_eq_fract (-4) 2 two_pos]
  norm_num [Int.fract, clamp01, jsRound]

/-- C1 amended: every synthesized stripe sample whose parameters stay in
range has linear intensity `gray - contrast/2` (dark) or
`gray + contrast/2` (light), quantized as
`round(255 × linear^(1/gamma))`; and in the 100×100 scenario
(orientation 0°, bar width 10 px, duty 0.5, contrast 0.4, gray 0.5,
gamma 1.0) the columns alternate in contiguous bands of exactly 10
columns between the dark byte 77 = round(0.3·255) and the light byte
179 = round(0.7·255) (`Math.round` rounds halves up, so the claimed
bytes 76 and 178 are off by one). -/
theorem c1_stripe_scenario_amended :
    (∀ (W H : ℕ) (bw d ph θ g c gamma x y : ℝ),
        0 ≤ c → c ≤ 1 → 0 ≤ g - c / 2 → g + c / 2 ≤ 1 →
        (stripeIsDark W H bw d ph θ x y →
          stripeByte gamma W H bw d ph θ g c x y =
            jsRound ((g - c / 2) ^ ((1 : ℝ) / gamma) * 255)) ∧
        (¬ stripeIsDark W H bw d ph θ x y →
          stripeByte gamma W H bw d ph θ g c x y =
            jsRound ((g + c / 2) ^ ((1 : ℝ) / gamma) * 255))) ∧
    (∀ x y : ℕ, x < 100 → y < 100 →
        stripeByte 1 100 100 10 (1/2) 0 0 (1/2) (2/5) x y =
          if x / 10 % 2 = 1 then 77 else 179) := by
  constructor
  · intro W H bw d ph θ g c gamma x y hc0 hc1 hlo hhi
    have hg0 : 0 ≤ g := by linarith
    have hg1 : g ≤ 1 := by linarith
    constructor <;> intro h <;>
      simp only [stripeIsDark] at h <;>
      simp only [stripeByte, stripeLin, gammaEncode] <;>
      rw [clamp01_of_mem g hg0 hg1, clamp01_of_mem c hc0 hc1]
    · rw [if_pos h, show g + -c / 2 = g - c / 2 by ring,
        clamp01_of_mem _ hlo (by linarith)]
    · rw [if_neg h, clamp01_of_mem _ (by linarith) hhi]
  · intro x y hx hy
    have hbar : stripeBarW 10 = 10 := by rw [stripeBarW, jsRound]; norm_num
    simp only [stripeByte, stripeLin, gammaEncode, deg2rad, hbar]
    norm_num [Real.cos_zero, Real.sin_zero]
    have hmodeq : jsMod (((x : ℝ) - 50) / 10) 2 = ((((x : ℤ) - 50) % 20 : ℤ) : ℝ) / 10 := by
      rw [jsMod_eq_fract _ 2 two_pos]
      have h20 : ((x : ℝ) - 50) / 10 / 2 = (((x : ℤ) - 50 : ℤ) : ℝ) / ((20 : ℕ) : ℝ) := by
        push_cast
        ring
      rw [h20, Int.fract_div_intCast_eq_div_intCast_mod]
      push_cast
      ring
    rw [hmodeq]
    by_cases hodd : x / 10 % 2 = 1
    · have hrlt : ((x : ℤ) - 50) % 20 < 10 := by omega
      rw [if_pos hodd, if_pos]
      · norm_num [clamp01, jsRound]
      · rw [show (2 : ℝ) * clamp01 (1/2) = 1 by norm_num [clamp01],
          div_lt_one (by norm_num : (0:ℝ) < 10)]
        exact_mod_cast hrlt
    · have hrge : (10 : ℤ) ≤ ((x : ℤ) - 50) % 20 := by omega
      rw [if_neg hodd, if_neg]
      · norm_num [clamp01, jsRound]
      · rw [show (2 : ℝ) * clamp01 (1/2) = 1 by norm_num [clamp01],
          div_lt_one (by norm_num : (0:ℝ) < 10)]
        exact not_lt.mpr (by exact_mod_cast hrge)

/-- Witness for the amended C1: the dark-classified pixel (10, 0) takes
the quantized dark intensity, and pixel (20, 0) of the concrete scenario
takes the band value prescribed by its column. -/
theorem c1_stripe_scenario_amended_witness :
    stripeByte 1 100 100 10 (1/2) 0 0 (1/2) (2/5) 10 0 =
        jsRound (((1 : ℝ)/2 - (2/5) / 2) ^ ((1 : ℝ) / 1) * 255) ∧
      stripeByte 1 100 100 10 (1/2) 0 0 (1/2) (2/5) 20 0 =
        if 20 / 10 % 2 = 1 then 77 else 179 := by
  constructor
  · have hdark : stripeIsDark 100 100 10 (1/2) 0 0 10 0 := by
      have hbar : stripeBarW 10 = 10 := by rw [stripeBarW, jsRound]; norm_num
      simp only [stripeIsDark, deg2rad, hbar]
      norm_num [Real.cos_zero, Real.sin_zero]
      rw [jsMod_eq_fract (-4) 2 two_pos]
      norm_num [Int.fract, clamp01]
    exact (c1_stripe_scenario_amended.1 100 100 10 (1/2) 0 0 (1/2) (2/5) 1 10 0
      (by norm_num) (by norm_num) (by norm_num) (by norm_num)).1 hdark
  · exact_mod_cast c1_stripe_scenario_amended.2 20 0 (by norm_num) (by norm_num)

/-! ## Claim C4 — fractional parameters are clamped on ingestion -/

theorem normalizeItem_gray (bg : ℚ) (raw : RawItem) :
    (normalizeItem bg raw).gray = clamp01q (raw.gray.getD bg) := by
  simp only [normalizeItem]
  split_ifs <;> rfl

theorem normalizeItem_alpha (bg : ℚ) (raw : RawItem) :
    (normalizeItem bg raw).alpha = clamp01q (raw.alpha.getD 1) := by
  simp only [normalizeItem]
  split_ifs <;> rfl

theorem normalizeItem_contrast_shape (bg : ℚ) (raw : RawItem) :
    ∀ v, (normalizeItem bg raw).contrast = some v → ∃ q, v = clamp01q q := by
  simp only [normalizeItem]
  split_ifs <;> intro v hv <;> simp at hv <;> exact ⟨_, hv.symm⟩

theorem normalizeItem_duty_shape (bg : ℚ) (raw : RawItem) :
    ∀ v, (normalizeItem bg raw).duty = some v → ∃ q, v = clamp01q q := by
  simp only [normalizeItem]
  split_ifs <;> intro v hv <;> simp at hv <;> exact ⟨_, hv.symm⟩

/-- C4: for every raw item and background level, the normalized `gray`
and `alpha` lie in [0,1], and whenever normalization sets a `contrast`
or `duty` field (texture items) that value lies in [0,1] as well:
out-of-range fractions are silently clamped during ingestion, and
normalization is a total function (it cannot throw). -/
theorem c4_normalize_clamps (bg : ℚ) (raw : RawItem) :
    (0 ≤ (normalizeItem bg raw).gray ∧ (normalizeItem bg raw).gray ≤ 1) ∧
    (0 ≤ (normalizeItem bg raw).alpha ∧ (normalizeItem bg raw).alpha ≤ 1) ∧
    (∀ c, (normalizeItem bg raw).contrast = some c → 0 ≤ c ∧ c ≤ 1) ∧
    (∀ d, (normalizeItem bg raw).duty = some d → 0 ≤ d ∧ d ≤ 1) := by
  refine ⟨?_, ?_, fun c hc => ?_, fun d hd => ?_⟩
  · rw [normalizeItem_gray]
    exact ⟨clamp01q_nonneg _, clamp01q_le_one _⟩
  · rw [normalizeItem_alpha]
    exact ⟨clamp01q_nonneg _, clamp01q_le_one _⟩
  · obtain ⟨q, rfl⟩ := normalizeItem_contrast_shape bg raw c hc
    exact ⟨clamp01q_nonneg _, clamp01q_le_one _⟩
  · obtain ⟨q, rfl⟩ := normalizeItem_duty_shape bg raw d hd
    exact ⟨clamp01q_nonneg _, clamp01q_le_one _⟩

/-- Witness for C4 on a stripes-texture item supplying gray 5/2,
alpha −3, contrast 7/2 and duty −1: all four normalized values are in
[0,1] (contrast normalizes to 1, duty to 0). -/
theorem c4_normalize_clamps_witness :
    ((0 ≤ (normalizeItem (1/2)
        ⟨some "texture", some (5/2), some (-3), some (7/2), some (-1),
          none, none, none, none, none, none⟩).gray ∧
      (normalizeItem (1/2)
        ⟨some "texture", some (5/2), some (-3), some (7/2), some (-1),
          none, none, none, none, none, none⟩).gray ≤ 1)) ∧
    (0 ≤ (1 : ℚ) ∧ (1 : ℚ) ≤ 1) ∧ (0 ≤ (0 : ℚ) ∧ (0 : ℚ) ≤ 1) := by
  refine ⟨(c4_normalize_clamps (1/2) _).1, ?_, ?_⟩
  · refine (c4_normalize_clamps (1/2)
      ⟨some "texture", some (5/2), some (-3), some (7/2), some (-1),
        none, none, none, none, none, none⟩).2.2.1 1 ?_
    simp only [normalizeItem]
    rw [if_neg (by decide), if_neg (by decide), if_neg (by decide), if_neg (by decide),
      if_neg (by decide), if_neg (by decide), if_pos trivial, if_neg (by decide)]
    norm_num [clamp01q]
  · refine (c4_normalize_clamps (1/2)
      ⟨some "texture", some (5/2), some (-3), some (7/2), some (-1),
        none, none, none, none, none, none⟩).2.2.2 0 ?_
    simp only [normalizeItem]
    rw [if_neg (by decide), if_neg (by decide), if_neg (by decide), if_neg (by decide),
      if_neg (by decide), if_neg (by decide), if_pos trivial, if_neg (by decide)]
    norm_num [clamp01q]

/-! ## Claim C9 — unrecognized kinds default to a disc -/

/-- C9: for a raw item whose `kind` is missing or not one of the
recognized variants, normalization substitutes the default filled disc
of radius 40 px (and, being a total function, never throws). -/
theorem c9_unknown_kind_defaults_to_disc (bg : ℚ) (raw : RawItem)
    (h : ∀ s, raw.kind = some s → s ∉ recognizedKinds) :
    (normalizeItem bg raw).kind = "circle" ∧
      (normalizeItem bg raw).radius_px = some 40 ∧
      (normalizeItem bg raw).fill = some true := by
  have hne : ∀ s, s ∈ recognizedKinds → ¬ raw.kind = some s := fun s hs heq => h s heq hs
  simp only [normalizeItem]
  rw [if_neg (hne "circle" (by decide)), if_neg (hne "annulus" (by decide)),
    if_neg (hne "rect" (by decide)), if_neg (hne "rectframe" (by decide)),
    if_neg (hne "stripe" (by decide)), if_neg (hne "cross" (by decide)),
    if_neg (hne "texture" (by decide))]
  exact ⟨rfl, rfl, rfl⟩

/-- Witness for C9: an item with the unrecognized kind `"blob"`
normalizes to the default disc. -/
theorem c9_unknown_kind_defaults_to_disc_witness :
    (normalizeItem (1/2)
        ⟨some "blob", none, none, none, none, none, none, none, none, none, none⟩).kind =
        "circle" ∧
      (normalizeItem (1/2)
        ⟨some "blob", none, none, none, none, none, none, none, none, none, none⟩).radius_px =
        some 40 ∧
      (normalizeItem (1/2)
        ⟨some "blob", none, none, none, none, none, none, none, none, none, none⟩).fill =
        some true :=
  c9_unknown_kind_defaults_to_disc (1/2) _
    (fun s hs => by
      injection hs with h2
      subst h2
      decide)

/-! ## Claim C10 — noise seed 0 is aliased to seed 1 -/

/-- C10: `(it.seed || 1)` replaces a supplied seed of 0 by 1 before
seeding `mulberry32`, so two noise syntheses identical except for seeds
0 and 1 produce byte-identical pixel buffers, for every box size,
contrast, gray and gamma. -/
theorem c10_seed_zero_aliases_seed_one (gamma : ℝ) (W H : ℕ) (c g : ℚ) :
    noiseBuffer gamma W H 0 c g = noiseBuffer gamma W H 1 c g := by
  have h : effSeed 0 = effSeed 1 := by decide
  funext i
  simp only [noiseBuffer, h]

/-! ## Claim C3 — noise determinism and seed sensitivity -/

/-- C3 counterexample: seeds 0 and 1 are different integer seeds, yet
they synthesize byte-identical noise buffers at every size — here on an
11×11 = 121 > 100 pixel buffer — because `(seed || 1)` aliases 0 to 1.
This falsifies "any two different seeds produce different buffers". -/
theorem c3_noise_seed_counterexample :
    (0 : ℤ) ≠ 1 ∧ 100 < 11 * 11 ∧
      noiseBuffer 1 11 11 0 (1/2) (1/2) = noiseBuffer 1 11 11 1 (1/2) (1/2) := by
  refine ⟨by decide, by decide, ?_⟩
  have h : effSeed 0 = effSeed 1 := by decide
  funext i
  simp only [noiseBuffer, h]

/-- C3 amended: noise synthesis is deterministic in the supplied seed —
the buffer does not depend on the `Math.random()` oracle once a finite
seed is supplied, so equal seeds give byte-identical buffers — and
distinct nonzero effective seeds generally give different buffers
(exhibited at seeds 1 and 2 on a 16×16 buffer, which differ already in
pixel 0); but a supplied seed of 0 is aliased to 1, so "any two
different seeds produce different buffers" holds only for nonzero
seeds. -/
theorem c3_noise_determinism_amended :
    (∀ (s oracle1 oracle2 : ℤ) (gamma : ℝ) (W H : ℕ) (c g : ℚ),
        noiseBuffer gamma W H (resolveSeed (some s) oracle1) c g =
          noiseBuffer gamma W H (resolveSeed (some s) oracle2) c g) ∧
    noiseBuffer 1 16 16 1 1 (1/2) ≠ noiseBuffer 1 16 16 2 1 (1/2) := by
  constructor
  · intro s o1 o2 gamma W H c g
    rfl
  · intro hEq
    have h0 := congrFun hEq ⟨0, by norm_num⟩
    simp only [noiseBuffer] at h0
    have hs1 : effSeed 1 = 1 := by decide
    have hs2 : effSeed 2 = 2 := by decide
    have hout1 : mulberry32Out (mulberry32State 1 0) = 2693262067 := by decide
    have hout2 : mulberry32Out (mulberry32State 2 0) = 3153583793 := by decide
    rw [hs1, hs2] at h0
    rw [noisePixelByte, noisePixelByte, noisePixelLin, noisePixelLin,
      mulberry32Rand, mulberry32Rand, hout1, hout2] at h0
    norm_num [clamp01q, gammaEncode, jsRound, Real.rpow_one] at h0

/-! ## Claim C2 — stable ascending z-order compositing -/

theorem mem_of_mem_insertZ {a x : NormItem} {l : List NormItem}
    (h : x ∈ insertZ a l) : x = a ∨ x ∈ l := by
  induction l with
  | nil => simpa [insertZ] using h
  | cons b l ih =>
    rw [insertZ] at h
    split_ifs at h with hab
    · exact List.mem_cons.mp h
    · rcases List.mem_cons.mp h with h1 | h1
      · exact Or.inr (h1 ▸ List.mem_cons_self b l)
      · rcases ih h1 with h2 | h2
        · exact Or.inl h2
        · exact Or.inr (List.mem_cons_of_mem b h2)

theorem pairwise_insertZ (a : NormItem) (l : List NormItem)
    (h : l.Pairwise (fun p q => p.z ≤ q.z)) :
    (insertZ a l).Pairwise (fun p q => p.z ≤ q.z) := by
  induction l with
  | nil => simp [insertZ]
  | cons b l ih =>
    rw [insertZ]
    rcases List.pairwise_cons.mp h with ⟨hb, hl⟩
    split_ifs with hab
    · refine List.pairwise_cons.mpr ⟨?_, h⟩
      intro x hx
      rcases List.mem_cons.mp hx with rfl | hx
      · exact hab
      · exact le_trans hab (hb x hx)
    · refine List.pairwise_cons.mpr ⟨?_, ih hl⟩
      intro x hx
      rcases mem_of_mem_insertZ hx with rfl | hx
      · exact le_of_lt (not_le.mp hab)
      · exact hb x hx

theorem sortZ_pairwise (l : List NormItem) :
    (sortZ l).Pairwise (fun p q => p.z ≤ q.z) := by
  induction l with
  | nil => simp [sortZ]
  | cons a l ih => exact pairwise_insertZ a (sortZ l) ih

theorem filter_insertZ (k : ℚ) (a : NormItem) (l : List NormItem) :
    (insertZ a l).filter (fun it => decide (it.z = k)) =
      (a :: l).filter (fun it => decide (it.z = k)) := by
  induction l with
  | nil => rfl
  | cons b l ih =>
    rw [insertZ]
    split_ifs with hab
    · rfl
    · have hba : b.z < a.z := not_le.mp hab
      by_cases hbz : b.z = k
      · have haz : ¬ a.z = k := by
          intro h2
          rw [h2, hbz] at hba
          exact lt_irrefl k hba
        simp [List.filter_cons, hbz, haz, ih]
      · simp [List.filter_cons, hbz, ih]

theorem filter_sortZ (k : ℚ) (l : List NormItem) :
    (sortZ l).filter (fun it => decide (it.z = k)) =
      l.filter (fun it => decide (it.z = k)) := by
  induction l with
  | nil => rfl
  | cons a l ih =>
    rw [sortZ, filter_insertZ, List.filter_cons, List.filter_cons, ih]

theorem composite_two_le (gamma bg : ℝ) (CW CH : ℕ) (a b : NormItem) (px py : ℤ)
    (hca : coversDisc CW CH a px py = true) (hcb : coversDisc CW CH b px py = true)
    (hba : a.blend = "source-over") (hbb : b.blend = "source-over")
    (haa : a.alpha = 1) (hab : b.alpha = 1)
    (hzab : a.z ≤ b.z) :
    compositePixel gamma bg CW CH [a, b] px py = ((itemByteVal gamma b : ℤ) : ℝ) := by
  have hs : sortZ [a, b] = [a, b] := by simp [sortZ, insertZ, hzab]
  simp only [compositePixel, hs, List.foldl]
  simp [paintPixel, hca, hcb, hba, hbb, haa, hab]

theorem composite_two_gt (gamma bg : ℝ) (CW CH : ℕ) (a b : NormItem) (px py : ℤ)
    (hca : coversDisc CW CH a px py = true) (hcb : coversDisc CW CH b px py = true)
    (hba : a.blend = "source-over") (hbb : b.blend = "source-over")
    (haa : a.alpha = 1) (hab : b.alpha = 1)
    (hzab : b.z < a.z) :
    compositePixel gamma bg CW CH [a, b] px py = ((itemByteVal gamma a : ℤ) : ℝ) := by
  have hs : sortZ [a, b] = [b, a] := by simp [sortZ, insertZ, not_le.mpr hzab]
  simp only [compositePixel, hs, List.foldl]
  simp [paintPixel, hca, hcb, hba, hbb, haa, hab]

/-- C2: the compositor's sort is ascending in `z` (every output list is
pairwise `z`-non-decreasing) and stable (for every z-level `k`, the
items with `z = k` keep their input order); consequently two fully
opaque overlapping source-over items paint the pixel with the
higher-`z` item's byte, and exchanging the two z values makes the other
item win. -/
theorem c2_z_order_compositing :
    (∀ l : List NormItem, (sortZ l).Pairwise (fun p q => p.z ≤ q.z)) ∧
    (∀ (l : List NormItem) (k : ℚ),
        (sortZ l).filter (fun it => decide (it.z = k)) =
          l.filter (fun it => decide (it.z = k))) ∧
    (∀ (gamma bg : ℝ) (CW CH : ℕ) (i1 i2 : NormItem) (px py : ℤ),
        coversDisc CW CH i1 px py = true → coversDisc CW CH i2 px py = true →
        i1.blend = "source-over" → i2.blend = "source-over" →
        i1.alpha = 1 → i2.alpha = 1 → i1.z < i2.z →
        compositePixel gamma bg CW CH [i1, i2] px py =
            ((itemByteVal gamma i2 : ℤ) : ℝ) ∧
          compositePixel gamma bg CW CH
              [{ i1 with z := i2.z }, { i2 with z := i1.z }] px py =
            ((itemByteVal gamma i1 : ℤ) : ℝ)) :=
  ⟨sortZ_pairwise, fun l k => filter_sortZ k l,
    fun gamma bg CW CH i1 i2 px py hc1 hc2 hb1 hb2 ha1 ha2 hz =>
      ⟨composite_two_le gamma bg CW CH i1 i2 px py hc1 hc2 hb1 hb2 ha1 ha2 (le_of_lt hz),
        composite_two_gt gamma bg CW CH { i1 with z := i2.z } { i2 with z := i1.z } px py
          hc1 hc2 hb1 hb2 ha1 ha2 hz⟩⟩

/-- Witness for C2: two overlapping opaque discs at z = 0 and z = 5 on
a 100×100 canvas; the pixel (50, 50) under both shows the z = 5 disc's
byte, and swapping the z values shows the other disc's byte. -/
theorem c2_z_order_compositing_witness :
    compositePixel 1 (1/2) 100 100
        [⟨"circle", 0, 0, 0, "source-over", 1/5, 1, none, none, none, some 10, some true⟩,
          ⟨"circle", 3, 0, 5, "source-over", 4/5, 1, none, none, none, some 10, some true⟩]
        50 50 =
      ((itemByteVal 1
        ⟨"circle", 3, 0, 5, "source-over", 4/5, 1, none, none, none, some 10, some true⟩ : ℤ) : ℝ) ∧
    compositePixel 1 (1/2) 100 100
        [⟨"circle", 0, 0, 5, "source-over", 1/5, 1, none, none, none, some 10, some true⟩,
          ⟨"circle", 3, 0, 0, "source-over", 4/5, 1, none, none, none, some 10, some true⟩]
        50 50 =
      ((itemByteVal 1
        ⟨"circle", 0, 0, 0, "source-over", 1/5, 1, none, none, none, some 10, some true⟩ : ℤ) : ℝ) := by
  have hcov1 : coversDisc 100 100
      ⟨"circle", 0, 0, 0, "source-over", 1/5, 1, none, none, none, some 10, some true⟩
      50 50 = true := by
    simp only [coversDisc]
    norm_num [jsRoundQ]
  have hcov2 : coversDisc 100 100
      ⟨"circle", 3, 0, 5, "source-over", 4/5, 1, none, none, none, some 10, some true⟩
      50 50 = true := by
    simp only [coversDisc]
    norm_num [jsRoundQ]
  exact c2_z_order_compositing.2.2 1 (1/2) 100 100
    ⟨"circle", 0, 0, 0, "source-over", 1/5, 1, none, none, none, some 10, some true⟩
    ⟨"circle", 3, 0, 5, "source-over", 4/5, 1, none, none, none, some 10, some true⟩
    50 50 hcov1 hcov2 rfl rfl rfl rfl (by norm_num)

/-! ## Claim C8 — gabor-array "add" and "max" blend laws -/

/-- C8: with two patches both touching a pixel, "add" mode sums the raw
contributions into the linear buffer and clamps once before gamma
encoding — for a nonnegative total the displayed byte encodes
`min(bg + a + b, 1)`, saturating at 1 — while "max" mode replaces the
buffer value by the elementwise maximum of the clamped per-patch
candidates `clamp01(bg + contrib)`, not by their sum. -/
theorem c8_gabor_blend_laws (gamma bg : ℝ) (W H : ℕ) (p1 p2 : PatchDraw) (x y : ℤ)
    (hv1 : gaborVisited W H p1 x y) (hv2 : gaborVisited W H p2 x y)
    (hbg0 : 0 ≤ bg) (hbg1 : bg ≤ 1)
    (hsum : 0 ≤ bg + gaborContrib bg W H p1 x y + gaborContrib bg W H p2 x y) :
    gaborByte gamma "add" bg W H [p1, p2] x y =
      gammaEncode
        (min (bg + gaborContrib bg W H p1 x y + gaborContrib bg W H p2 x y) 1) gamma ∧
    gaborBuf "max" bg W H [p1, p2] x y =
      max (max (clamp01 bg) (clamp01 (bg + gaborContrib bg W H p1 x y)))
        (clamp01 (bg + gaborContrib bg W H p2 x y)) := by
  have hclbg : clamp01 bg = bg := clamp01_of_mem bg hbg0 hbg1
  constructor
  · simp only [gaborByte, gaborBuf, List.foldl, gaborStep, if_pos hv1, if_pos hv2,
      if_neg (by decide : ¬ ("add" = "max"))]
    rw [hclbg, clamp01_eq_min _ hsum]
  · simp only [gaborBuf, List.foldl, gaborStep, if_pos hv1, if_pos hv2,
      if_pos (rfl : "max" = "max"), eq_self_iff_true, if_true]

/-- Witness for C8: two identical full-contrast patches centered on a
100×100 canvas each contribute 0.5 at the center pixel over background
0.5, so "add" saturates (`min(1.5, 1) = 1`) and "max" takes the maximum
of the clamped candidates. -/
theorem c8_gabor_blend_laws_witness :
    gaborByte 1 "add" (1/2) 100 100
        [⟨0, 0, 10, 0, 1, 1/50, 0, 8, 1⟩, ⟨0, 0, 10, 0, 1, 1/50, 0, 8, 1⟩] 50 50 =
      gammaEncode
        (min ((1:ℝ)/2 + gaborContrib (1/2) 100 100 ⟨0, 0, 10, 0, 1, 1/50, 0, 8, 1⟩ 50 50 +
          gaborContrib (1/2) 100 100 ⟨0, 0, 10, 0, 1, 1/50, 0, 8, 1⟩ 50 50) 1) 1 ∧
    gaborBuf "max" (1/2) 100 100
        [⟨0, 0, 10, 0, 1, 1/50, 0, 8, 1⟩, ⟨0, 0, 10, 0, 1, 1/50, 0, 8, 1⟩] 50 50 =
      max (max (clamp01 (1/2))
          (clamp01 ((1:ℝ)/2 + gaborContrib (1/2) 100 100 ⟨0, 0, 10, 0, 1, 1/50, 0, 8, 1⟩ 50 50)))
        (clamp01 ((1:ℝ)/2 + gaborContrib (1/2) 100 100 ⟨0, 0, 10, 0, 1, 1/50, 0, 8, 1⟩ 50 50)) := by
  have hv : gaborVisited 100 100 ⟨0, 0, 10, 0, 1, 1/50, 0, 8, 1⟩ 50 50 := by
    simp only [gaborVisited, gaborCx, gaborCy, gaborHalf, jsRound]
    norm_num
  have hc : gaborContrib (1/2) 100 100 ⟨0, 0, 10, 0, 1, 1/50, 0, 8, 1⟩ 50 50 = 1/2 := by
    simp only [gaborContrib, gaborCx, gaborCy, deg2rad, jsRound]
    norm_num [Real.cos_zero, Real.exp_zero]
  exact c8_gabor_blend_laws 1 (1/2) 100 100 _ _ 50 50 hv hv (by norm_num) (by norm_num)
    (by rw [hc]; norm_num)

end SweetJsPsych
